import Mathlib

/-
Shallow embedding of `src/submarine_detection.py` (MookLags/submarine_SNR).

The Python program is a parametric acoustic estimator: a vessel profile
(`System(...)` from modsim, a plain record) feeds closed-form formulas for
source noise level, cavitation contribution, transmission loss and SNR, plus
two linear scans over a fixed catalog (loudest / quietest vessel) and a
linspace-based SNR-versus-distance sampler.

Modelling conventions:
  * Python floats are modelled by real numbers (`ℝ`); `np.log` is modelled by
    `Real.log` (they agree on positive arguments, the only ones the documented
    preconditions allow); `x ** y` is modelled by real `rpow`.
  * The running accumulators `float('-inf')` / `float('inf')` in the two scan
    functions are modelled in `EReal` (`⊥` / `⊤`), with computed SNRs coerced
    from `ℝ`.
  * A Python exception is modelled with an explicit error value (`PyError`);
    the embedding marks exactly the places where the source can raise.
-/

namespace SubmarineSNR

noncomputable section

open scoped Classical

/-- The vessel record, as built by `System(name=..., L0=..., v0=..., n=...,
p=..., A=..., ms=...)` in the source: `L0` resting level (dB), `v0` cavitation
threshold speed (knots), `n` noise scaling exponent, `p` cavitation growth
rate, `A` cavitation scale, `ms` max submerged speed (display only). -/
structure System where
  name : String
  L0 : ℝ
  v0 : ℝ
  n : ℝ
  p : ℝ
  A : ℝ
  ms : ℝ

/-- The data-model invariants of a vessel profile (spec section 3):
`cavitationThresholdSpeed > 0`, `cavitationScale >= 0`,
`noiseScalingExponent > 0`. -/
def validProfile (s : System) : Prop := 0 < s.v0 ∧ 0 ≤ s.A ∧ 0 < s.n

/-- `ohio = System(name='Ohio', L0=100, v0=21, n=2.5, p=2.5, A=0.3125, ms=25)`
(fields positional: name, L0, v0, n, p, A, ms). -/
def ohio : System := ⟨"Ohio", 100, 21, 2.5, 2.5, 0.3125, 25⟩

/-- `lafayette = System(name='Lafeyette', L0=103, v0=8, n=2.8, p=2.5, A=0.074, ms=21)` -/
def lafayette : System := ⟨"Lafeyette", 103, 8, 2.8, 2.5, 0.074, 21⟩

/-- `seawolf = System(name='Seawolf', L0=94, v0=20, n=2.3, p=2.5, A=0.1, ms=30)` -/
def seawolf : System := ⟨"Seawolf", 94, 20, 2.3, 2.5, 0.1, 30⟩

/-- `los_angeles = System(name='Los Angeles', L0=98, v0=13, n=2.5, p=2.5, A=0.15, ms=30)` -/
def los_angeles : System := ⟨"Los Angeles", 98, 13, 2.5, 2.5, 0.15, 30⟩

/-- `typhoon = System(name='Typhoon', L0=110, v0=7, n=3.0, p=2.5, A=0.15, ms=28)` -/
def typhoon : System := ⟨"Typhoon", 110, 7, 3.0, 2.5, 0.15, 28⟩

/-- `red_october = System(name='Red October', L0=85, v0=15, n=1.5, p=2.5, A=0.05, ms=28)` -/
def red_october : System := ⟨"Red October", 85, 15, 1.5, 2.5, 0.05, 28⟩

/-- `subs = [ohio, lafayette, seawolf, los_angeles, typhoon, red_october]` -/
def subs : List System := [ohio, lafayette, seawolf, los_angeles, typhoon, red_october]

/-- `dLcav(v, system)`:
`if v <= system.v0: return 0 else: return system.A * (v - system.v0)**system.p`. -/
def dLcav (v : ℝ) (s : System) : ℝ :=
  if v ≤ s.v0 then 0 else s.A * (v - s.v0) ^ s.p

/-- `get_noise_level(v, system)`:
`x = 1 + (v / system.v0)**system.n;
return system.L0 + 10 * (np.log(x) / np.log(10)) + dLcav(v, system)`. -/
def get_noise_level (v : ℝ) (s : System) : ℝ :=
  s.L0 + 10 * (Real.log (1 + (v / s.v0) ^ s.n) / Real.log 10) + dLcav v s

/-- `get_transmission_loss(r)`: with `alpha = 0.00004`,
`return 20 * (np.log(r) / np.log(10)) + alpha * r`.  This is the value the
source computes on the documented domain `r > 0` (where `np.log` agrees with
`Real.log`); `get_transmission_loss_run` below models the run-time outcome on
all inputs. -/
def get_transmission_loss (r : ℝ) : ℝ :=
  20 * (Real.log r / Real.log 10) + 0.00004 * r

/-- Python exceptions relevant to this program.  The spec names
`InvalidParameterError`, `EmptyCatalogError` and `UnknownVesselError`; the
source itself can only ever raise `NameError` (reading the unbound local
`quietest_sub` in `get_quietest_sub`). -/
inductive PyError
  | invalidParameter
  | emptyCatalog
  | unknownVessel
  | nameError
deriving DecidableEq

/-- Possible run-time outcomes of evaluating `get_transmission_loss` the way
Python/numpy executes it: a finite float, `-inf`, `nan`, or a raised
exception. -/
inductive TLResult
  | finite (x : ℝ)
  | negInf
  | nan
  | raised (e : PyError)

/-- Run-time behaviour of `get_transmission_loss(r)` on every input.  The body
is a straight-line formula with no validation and no `raise`: for `r > 0` it
returns the finite value `get_transmission_loss r`; for `r = 0`, `np.log(0)`
is `-inf` (numpy emits a RuntimeWarning, not an exception) and the surrounding
arithmetic `20 * (-inf)/log(10) + 0.00004*0` propagates `-inf`; for `r < 0`,
`np.log(r)` is `nan` and `nan` propagates.  No branch produces `.raised`. -/
def get_transmission_loss_run (r : ℝ) : TLResult :=
  if 0 < r then .finite (get_transmission_loss r)
  else if r = 0 then .negInf
  else .nan

/-- `get_signal_to_noise_ratio(v, r, NL, system)`:
`return get_noise_level(v, system) - get_transmission_loss(r) - NL`. -/
def get_signal_to_noise_ratio (v r NL : ℝ) (s : System) : ℝ :=
  get_noise_level v s - get_transmission_loss r - NL

/-- One iteration of the loop in `get_loudest_sub`: compute
`snr = get_signal_to_noise_ratio(v, r, NL, sub)` (here `f sub`) and execute
`if snr > best_snr: best_snr = snr; loudest_sub = sub.name`.  The accumulator
is the pair `(loudest_sub, best_snr)`; `best_snr` lives in `EReal` because it
is initialised to `float('-inf')`. -/
def loudStep (f : System → ℝ) (acc : Option String × EReal) (sub : System) :
    Option String × EReal :=
  if (f sub : EReal) > acc.2 then (some sub.name, (f sub : EReal)) else acc

/-- `get_loudest_sub(v, r, NL, subs)`: starts from
`best_snr = float('-inf')`, `loudest_sub = None`, runs the comparison loop,
and returns the pair `(loudest_sub, best_snr)` unconditionally. -/
def get_loudest_sub (v r NL : ℝ) (l : List System) : Option String × EReal :=
  l.foldl (loudStep (get_signal_to_noise_ratio v r NL)) (none, ⊥)

/-- One iteration of the loop in `get_quietest_sub`:
`if snr < best_snr: best_snr = snr; quietest_sub = sub.name`.  The first
component models the local variable `quietest_sub`, which is *unbound* before
the loop (`none`); the variable initialised before the loop in the source is
the never-read `loudest_sub = None`. -/
def quietStep (f : System → ℝ) (acc : Option String × EReal) (sub : System) :
    Option String × EReal :=
  if (f sub : EReal) < acc.2 then (some sub.name, (f sub : EReal)) else acc

/-- `get_quietest_sub(v, r, NL, subs)`: starts from `best_snr = float('inf')`
with `quietest_sub` unbound, runs the comparison loop, then evaluates
`return quietest_sub, best_snr`.  If the loop never assigned `quietest_sub`
(empty catalog), that read raises `NameError`; otherwise the pair is
returned. -/
def get_quietest_sub (v r NL : ℝ) (l : List System) :
    Except PyError (String × EReal) :=
  match l.foldl (quietStep (get_signal_to_noise_ratio v r NL)) (none, ⊤) with
  | (some nm, best) => .ok (nm, best)
  | (none, _) => .error .nameError

/-- `np.linspace(a, b, num)` with the default `endpoint=True`, on the spec's
domain `num ≥ 2`: the `num` points `a + (b - a) * i / (num - 1)` for
`i = 0, ..., num - 1` (step `(b - a)/(num - 1)`, first point `a`, last point
`b`).  numpy special-cases `num < 2`; those inputs are outside the documented
precondition `sampleCount ≥ 2` and no theorem below uses them. -/
def linspace (a b : ℝ) (num : ℕ) : List ℝ :=
  (List.range num).map (fun (i : ℕ) => a + (b - a) * (i : ℝ) / ((num : ℝ) - 1))

/-- The sample production of `get_snr_for_range_of_distances(v, r, NL, sub,
intervals)`: `distances = np.linspace(1, r, intervals)` and
`snrs = [get_signal_to_noise_ratio(v, d, NL, sub) for d in distances]`, read
off as the list of `(distance, snr)` pairs the source then plots against each
other (the matplotlib rendering is presentation, outside the core per the
spec's scope). -/
def get_snr_for_range_of_distances (v r NL : ℝ) (sub : System) (intervals : ℕ) :
    List (ℝ × ℝ) :=
  (linspace 1 r intervals).map (fun d => (d, get_signal_to_noise_ratio v d NL sub))

/-- Profile exhibiting that nothing in the data-model invariants constrains
the cavitation growth rate `p`: positional fields name, L0, v0, n, p, A, ms,
so `L0 = 0`, `v0 = 1`, `n = 2`, `p = -1`, `A = 100`. -/
def decoy : System := ⟨"Decoy", 0, 1, 2, -1, 100, 0⟩

/-! ### Helper lemmas -/

lemma ohio_valid : validProfile ohio := by
  refine ⟨?_, ?_, ?_⟩ <;> norm_num [ohio]

lemma seawolf_valid : validProfile seawolf := by
  refine ⟨?_, ?_, ?_⟩ <;> norm_num [seawolf]

lemma decoy_valid : validProfile decoy := by
  refine ⟨?_, ?_, ?_⟩ <;> norm_num [decoy]

lemma log10_pos : 0 < Real.log 10 := Real.log_pos (by norm_num)

/-- The cavitation term is non-decreasing in speed when the cavitation scale
and the growth rate are both non-negative. -/
lemma dLcav_mono (s : System) (hA : 0 ≤ s.A) (hp : 0 ≤ s.p) {a b : ℝ}
    (hab : a ≤ b) : dLcav a s ≤ dLcav b s := by
  simp only [dLcav]
  by_cases hb : b ≤ s.v0
  · rw [if_pos (le_trans hab hb), if_pos hb]
  · rw [if_neg hb]
    push_neg at hb
    by_cases ha : a ≤ s.v0
    · rw [if_pos ha]
      exact mul_nonneg hA (Real.rpow_nonneg (by linarith) _)
    · rw [if_neg ha]
      push_neg at ha
      exact mul_le_mul_of_nonneg_left
        (Real.rpow_le_rpow (by linarith) (by linarith) hp) hA

/-- Characterisation of the loop of `get_loudest_sub` from an arbitrary
accumulator: either no element's value strictly exceeds the running best and
the accumulator survives unchanged, or the result is the first-indexed
element attaining the strict maximum among those exceeding it. -/
lemma foldl_loudStep_spec (f : System → ℝ) (l : List System) :
    ∀ (o : Option String) (b : EReal),
      (l.foldl (loudStep f) (o, b) = (o, b) ∧ ∀ s ∈ l, (f s : EReal) ≤ b)
      ∨ (∃ i : Fin l.length,
          l.foldl (loudStep f) (o, b)
            = (some (l.get i).name, (f (l.get i) : EReal))
          ∧ b < (f (l.get i) : EReal)
          ∧ (∀ j : Fin l.length, f (l.get j) ≤ f (l.get i))
          ∧ (∀ j : Fin l.length, (j : ℕ) < (i : ℕ) → f (l.get j) < f (l.get i))) := by
  induction l with
  | nil =>
    intro o b
    exact Or.inl ⟨rfl, by simp⟩
  | cons s t ih =>
    intro o b
    rw [List.foldl_cons]
    by_cases hc : (f s : EReal) > (o, b).2
    · rw [show loudStep f (o, b) s = (some s.name, (f s : EReal)) from if_pos hc]
      rcases ih (some s.name) ((f s : EReal)) with ⟨heq, hall⟩ | ⟨i, heq, hlt, hmax, hfirst⟩
      · refine Or.inr ⟨⟨0, Nat.succ_pos _⟩, heq, hc, ?_, ?_⟩
        · intro j
          rcases j with ⟨jv, hj⟩
          cases jv with
          | zero => exact le_refl _
          | succ k =>
            have hk : k < t.length := Nat.lt_of_succ_lt_succ hj
            exact EReal.coe_le_coe_iff.mp (hall _ (List.get_mem t k hk))
        · intro j hj
          exact absurd hj (Nat.not_lt_zero _)
      · refine Or.inr ⟨⟨i.1 + 1, Nat.succ_lt_succ i.2⟩, heq, lt_trans hc hlt, ?_, ?_⟩
        · intro j
          rcases j with ⟨jv, hj⟩
          cases jv with
          | zero => exact le_of_lt (EReal.coe_lt_coe_iff.mp hlt)
          | succ k =>
            have hk : k < t.length := Nat.lt_of_succ_lt_succ hj
            exact hmax ⟨k, hk⟩
        · intro j hj
          rcases j with ⟨jv, hjlen⟩
          cases jv with
          | zero => exact EReal.coe_lt_coe_iff.mp hlt
          | succ k =>
            have hk : k < t.length := Nat.lt_of_succ_lt_succ hjlen
            exact hfirst ⟨k, hk⟩ (Nat.lt_of_succ_lt_succ hj)
    · have hle : (f s : EReal) ≤ b := not_lt.mp hc
      rw [show loudStep f (o, b) s = (o, b) from if_neg hc]
      rcases ih o b with ⟨heq, hall⟩ | ⟨i, heq, hlt, hmax, hfirst⟩
      · refine Or.inl ⟨heq, ?_⟩
        intro x hx
        rcases List.mem_cons.mp hx with hx | hx
        · rw [hx]; exact hle
        · exact hall x hx
      · refine Or.inr ⟨⟨i.1 + 1, Nat.succ_lt_succ i.2⟩, heq, hlt, ?_, ?_⟩
        · intro j
          rcases j with ⟨jv, hj⟩
          cases jv with
          | zero => exact le_of_lt (EReal.coe_lt_coe_iff.mp (lt_of_le_of_lt hle hlt))
          | succ k =>
            have hk : k < t.length := Nat.lt_of_succ_lt_succ hj
            exact hmax ⟨k, hk⟩
        · intro j hj
          rcases j with ⟨jv, hjlen⟩
          cases jv with
          | zero => exact EReal.coe_lt_coe_iff.mp (lt_of_le_of_lt hle hlt)
          | succ k =>
            have hk : k < t.length := Nat.lt_of_succ_lt_succ hjlen
            exact hfirst ⟨k, hk⟩ (Nat.lt_of_succ_lt_succ hj)

/-- Characterisation of the loop of `get_quietest_sub` from an arbitrary
accumulator: the order-dual of `foldl_loudStep_spec`. -/
lemma foldl_quietStep_spec (f : System → ℝ) (l : List System) :
    ∀ (o : Option String) (b : EReal),
      (l.foldl (quietStep f) (o, b) = (o, b) ∧ ∀ s ∈ l, b ≤ (f s : EReal))
      ∨ (∃ i : Fin l.length,
          l.foldl (quietStep f) (o, b)
            = (some (l.get i).name, (f (l.get i) : EReal))
          ∧ (f (l.get i) : EReal) < b
          ∧ (∀ j : Fin l.length, f (l.get i) ≤ f (l.get j))
          ∧ (∀ j : Fin l.length, (j : ℕ) < (i : ℕ) → f (l.get i) < f (l.get j))) := by
  induction l with
  | nil =>
    intro o b
    exact Or.inl ⟨rfl, by simp⟩
  | cons s t ih =>
    intro o b
    rw [List.foldl_cons]
    by_cases hc : (f s : EReal) < (o, b).2
    · rw [show quietStep f (o, b) s = (some s.name, (f s : EReal)) from if_pos hc]
      rcases ih (some s.name) ((f s : EReal)) with ⟨heq, hall⟩ | ⟨i, heq, hlt, hmin, hfirst⟩
      · refine Or.inr ⟨⟨0, Nat.succ_pos _⟩, heq, hc, ?_, ?_⟩
        · intro j
          rcases j with ⟨jv, hj⟩
          cases jv with
          | zero => exact le_refl _
          | succ k =>
            have hk : k < t.length := Nat.lt_of_succ_lt_succ hj
            exact EReal.coe_le_coe_iff.mp (hall _ (List.get_mem t k hk))
        · intro j hj
          exact absurd hj (Nat.not_lt_zero _)
      · refine Or.inr ⟨⟨i.1 + 1, Nat.succ_lt_succ i.2⟩, heq, lt_trans hlt hc, ?_, ?_⟩
        · intro j
          rcases j with ⟨jv, hj⟩
          cases jv with
          | zero => exact le_of_lt (EReal.coe_lt_coe_iff.mp hlt)
          | succ k =>
            have hk : k < t.length := Nat.lt_of_succ_lt_succ hj
            exact hmin ⟨k, hk⟩
        · intro j hj
          rcases j with ⟨jv, hjlen⟩
          cases jv with
          | zero => exact EReal.coe_lt_coe_iff.mp hlt
          | succ k =>
            have hk : k < t.length := Nat.lt_of_succ_lt_succ hjlen
            exact hfirst ⟨k, hk⟩ (Nat.lt_of_succ_lt_succ hj)
    · have hle : b ≤ (f s : EReal) := not_lt.mp hc
      rw [show quietStep f (o, b) s = (o, b) from if_neg hc]
      rcases ih o b with ⟨heq, hall⟩ | ⟨i, heq, hlt, hmin, hfirst⟩
      · refine Or.inl ⟨heq, ?_⟩
        intro x hx
        rcases List.mem_cons.mp hx with hx | hx
        · rw [hx]; exact hle
        · exact hall x hx
      · refine Or.inr ⟨⟨i.1 + 1, Nat.succ_lt_succ i.2⟩, heq, hlt, ?_, ?_⟩
        · intro j
          rcases j with ⟨jv, hj⟩
          cases jv with
          | zero => exact le_of_lt (EReal.coe_lt_coe_iff.mp (lt_of_lt_of_le hlt hle))
          | succ k =>
            have hk : k < t.length := Nat.lt_of_succ_lt_succ hj
            exact hmin ⟨k, hk⟩
        · intro j hj
          rcases j with ⟨jv, hjlen⟩
          cases jv with
          | zero => exact EReal.coe_lt_coe_iff.mp (lt_of_lt_of_le hlt hle)
          | succ k =>
            have hk : k < t.length := Nat.lt_of_succ_lt_succ hjlen
            exact hfirst ⟨k, hk⟩ (Nat.lt_of_succ_lt_succ hj)

/-! ### Claim theorems -/

/-- C1: for every speed `v ≥ 0` and every profile satisfying the data-model
invariants, `get_noise_level` returns
`L0 + 10 * log10(1 + (v / v0)^n) + dLcav(v, profile)`. -/
theorem noise_level_eq_spec (v : ℝ) (s : System) (hv : 0 ≤ v)
    (hs : validProfile s) :
    get_noise_level v s
      = s.L0 + 10 * Real.logb 10 (1 + (v / s.v0) ^ s.n) + dLcav v s := by
  simp [get_noise_level, Real.logb]

/-- Witness for C1: the formula at speed 21 for the Seawolf profile. -/
theorem noise_level_eq_spec_witness :
    get_noise_level 21 seawolf
      = seawolf.L0 + 10 * Real.logb 10 (1 + ((21 : ℝ) / seawolf.v0) ^ seawolf.n)
        + dLcav 21 seawolf :=
  noise_level_eq_spec 21 seawolf (by norm_num) seawolf_valid

/-- C2: `dLcav` returns exactly 0 for every speed at or below the cavitation
threshold, and `A * (v - v0)^p` for every speed strictly above it. -/
theorem dLcav_threshold_cases (v : ℝ) (s : System) (hs : validProfile s) :
    (v ≤ s.v0 → dLcav v s = 0)
      ∧ (s.v0 < v → dLcav v s = s.A * (v - s.v0) ^ s.p) := by
  constructor
  · intro h; rw [dLcav, if_pos h]
  · intro h; rw [dLcav, if_neg (not_le.mpr h)]

/-- Witness for C2: Seawolf at the threshold speed 20 (inclusive boundary,
returns 0) and just above it at 21. -/
theorem dLcav_threshold_cases_witness :
    dLcav 20 seawolf = 0
      ∧ dLcav 21 seawolf = seawolf.A * (21 - seawolf.v0) ^ seawolf.p :=
  ⟨(dLcav_threshold_cases 20 seawolf seawolf_valid).1 (by norm_num [seawolf]),
   (dLcav_threshold_cases 21 seawolf seawolf_valid).2 (by norm_num [seawolf])⟩

/-- C3: for every distance `r > 0`, `get_transmission_loss` returns
`20 * log10(r) + 0.00004 * r`, and at distance 1000 the value is 60.04 within
`1e-9` (in the real model it is exact). -/
theorem transmission_loss_formula (r : ℝ) (hr : 0 < r) :
    get_transmission_loss r = 20 * Real.logb 10 r + 0.00004 * r
      ∧ |get_transmission_loss 1000 - 60.04| ≤ 1e-9 := by
  constructor
  · simp [get_transmission_loss, Real.logb]
  · have hlog : Real.log 1000 = 3 * Real.log 10 := by
      rw [show (1000 : ℝ) = 10 ^ (3 : ℕ) by norm_num, Real.log_pow]
      push_cast; ring
    have hne : Real.log 10 ≠ 0 := ne_of_gt log10_pos
    have hval : get_transmission_loss 1000 = 60.04 := by
      rw [get_transmission_loss, hlog]
      field_simp
      ring
    rw [hval]
    norm_num

/-- Witness for C3: the formula and the concrete scenario at distance 1000. -/
theorem transmission_loss_formula_witness :
    get_transmission_loss 1000 = 20 * Real.logb 10 1000 + 0.00004 * 1000
      ∧ |get_transmission_loss 1000 - 60.04| ≤ 1e-9 :=
  transmission_loss_formula 1000 (by norm_num)

/-- C4: `get_signal_to_noise_ratio` returns exactly
`get_noise_level - get_transmission_loss - NL`, with no clamping: for any
bound the result can be pushed below or above it by choosing the ambient
noise level. -/
theorem snr_formula (v r NL : ℝ) (s : System) (hv : 0 ≤ v) (hr : 0 < r)
    (hs : validProfile s) :
    get_signal_to_noise_ratio v r NL s
        = get_noise_level v s - get_transmission_loss r - NL
      ∧ (∀ B : ℝ, ∃ NL2 : ℝ, get_signal_to_noise_ratio v r NL2 s < B)
      ∧ (∀ B : ℝ, ∃ NL2 : ℝ, B < get_signal_to_noise_ratio v r NL2 s) := by
  refine ⟨rfl, ?_, ?_⟩
  · intro B
    refine ⟨get_noise_level v s - get_transmission_loss r - B + 1, ?_⟩
    simp only [get_signal_to_noise_ratio]
    linarith
  · intro B
    refine ⟨get_noise_level v s - get_transmission_loss r - B - 1, ?_⟩
    simp only [get_signal_to_noise_ratio]
    linarith

/-- Witness for C4: the SNR decomposition for Ohio at speed 5, distance 1000,
ambient noise 60. -/
theorem snr_formula_witness :
    get_signal_to_noise_ratio 5 1000 60 ohio
      = get_noise_level 5 ohio - get_transmission_loss 1000 - 60 :=
  (snr_formula 5 1000 60 ohio (by norm_num) (by norm_num) ohio_valid).1

/-- C5: on a non-empty catalog (at a valid distance), `get_loudest_sub`
returns the name and SNR of the profile with the strict maximum SNR and
`get_quietest_sub` returns the name and SNR of the profile with the strict
minimum SNR; in both scans, on exact SNR equality the earlier-indexed profile
wins (every strictly earlier index has strictly worse SNR than the returned
one). -/
theorem extrema_first_argmax (v r NL : ℝ) (l : List System)
    (hne : l ≠ []) (hr : 0 < r) :
    (∃ i : Fin l.length,
        get_loudest_sub v r NL l
          = (some (l.get i).name, (get_signal_to_noise_ratio v r NL (l.get i) : EReal))
        ∧ (∀ j : Fin l.length,
            get_signal_to_noise_ratio v r NL (l.get j)
              ≤ get_signal_to_noise_ratio v r NL (l.get i))
        ∧ (∀ j : Fin l.length, (j : ℕ) < (i : ℕ) →
            get_signal_to_noise_ratio v r NL (l.get j)
              < get_signal_to_noise_ratio v r NL (l.get i)))
    ∧ (∃ i : Fin l.length,
        get_quietest_sub v r NL l
          = Except.ok ((l.get i).name, (get_signal_to_noise_ratio v r NL (l.get i) : EReal))
        ∧ (∀ j : Fin l.length,
            get_signal_to_noise_ratio v r NL (l.get i)
              ≤ get_signal_to_noise_ratio v r NL (l.get j))
        ∧ (∀ j : Fin l.length, (j : ℕ) < (i : ℕ) →
            get_signal_to_noise_ratio v r NL (l.get i)
              < get_signal_to_noise_ratio v r NL (l.get j))) := by
  constructor
  · rcases foldl_loudStep_spec (get_signal_to_noise_ratio v r NL) l none ⊥ with
      ⟨heq, hall⟩ | ⟨i, heq, hlt, hmax, hfirst⟩
    · obtain ⟨x, hx⟩ := List.exists_mem_of_ne_nil l hne
      exact absurd (hall x hx) (by simp)
    · exact ⟨i, heq, hmax, hfirst⟩
  · rcases foldl_quietStep_spec (get_signal_to_noise_ratio v r NL) l none ⊤ with
      ⟨heq, hall⟩ | ⟨i, heq, hlt, hmin, hfirst⟩
    · obtain ⟨x, hx⟩ := List.exists_mem_of_ne_nil l hne
      exact absurd (hall x hx) (by simp)
    · refine ⟨i, ?_, hmin, hfirst⟩
      rw [get_quietest_sub, heq]

/-- Witness for C5: the two scans on the source's own six-vessel catalog at
speed 5, distance 1000, ambient noise 60. -/
theorem extrema_first_argmax_witness :
    (∃ i : Fin subs.length,
        get_loudest_sub 5 1000 60 subs
          = (some (subs.get i).name,
             (get_signal_to_noise_ratio 5 1000 60 (subs.get i) : EReal))
        ∧ (∀ j : Fin subs.length,
            get_signal_to_noise_ratio 5 1000 60 (subs.get j)
              ≤ get_signal_to_noise_ratio 5 1000 60 (subs.get i))
        ∧ (∀ j : Fin subs.length, (j : ℕ) < (i : ℕ) →
            get_signal_to_noise_ratio 5 1000 60 (subs.get j)
              < get_signal_to_noise_ratio 5 1000 60 (subs.get i)))
    ∧ (∃ i : Fin subs.length,
        get_quietest_sub 5 1000 60 subs
          = Except.ok ((subs.get i).name,
             (get_signal_to_noise_ratio 5 1000 60 (subs.get i) : EReal))
        ∧ (∀ j : Fin subs.length,
            get_signal_to_noise_ratio 5 1000 60 (subs.get i)
              ≤ get_signal_to_noise_ratio 5 1000 60 (subs.get j))
        ∧ (∀ j : Fin subs.length, (j : ℕ) < (i : ℕ) →
            get_signal_to_noise_ratio 5 1000 60 (subs.get i)
              < get_signal_to_noise_ratio 5 1000 60 (subs.get j))) :=
  extrema_first_argmax 5 1000 60 subs (by simp [subs]) (by norm_num)

/-- C6 counterexample: on the empty catalog, `get_loudest_sub` returns the
normal value `(None, -inf)` — no exception at all — and `get_quietest_sub`
fails with `NameError` (the unbound local `quietest_sub`), which is an
unhandled crash, not an `EmptyCatalogError` (no such error exists in the
code).  This refutes the claim that both raise `EmptyCatalogError`. -/
theorem empty_catalog_no_error_cex :
    get_loudest_sub 5 1000 60 [] = (none, ⊥)
      ∧ get_quietest_sub 5 1000 60 [] = Except.error PyError.nameError
      ∧ PyError.nameError ≠ PyError.emptyCatalog :=
  ⟨rfl, rfl, by decide⟩

/-- C6 amended: on the empty catalog, `get_loudest_sub` returns `(None, -inf)`
as a normal value and `get_quietest_sub` fails by reading the unbound local
`quietest_sub` (`NameError`); neither raises `EmptyCatalogError`. -/
theorem empty_catalog_behavior (v r NL : ℝ) :
    get_loudest_sub v r NL [] = (none, ⊥)
      ∧ get_quietest_sub v r NL [] = Except.error PyError.nameError :=
  ⟨rfl, rfl⟩

/-- C7 counterexample: the data-model invariants do not constrain the
cavitation growth rate `p`, and with `p = -1` (profile `decoy`: `v0 = 1`,
`n = 2`, `A = 100`) the source level *decreases* from speed 2 to speed 5:
`get_noise_level 2 = 10*log10(5) + 100` but `get_noise_level 5 =
10*log10(26) + 25`.  So `get_noise_level` is not monotone in speed for every
profile satisfying the invariants. -/
theorem noise_level_not_monotone_cex :
    ¬ (∀ s : System, validProfile s →
        ∀ a b : ℝ, 0 ≤ a → a ≤ b → get_noise_level a s ≤ get_noise_level b s) := by
  intro h
  have hmono := h decoy decoy_valid 2 5 (by norm_num) (by norm_num)
  have h22 : (2:ℝ) ^ (2:ℝ) = 4 := by
    rw [show (2:ℝ) ^ (2:ℝ) = (2:ℝ) ^ ((2:ℕ):ℝ) by norm_num, Real.rpow_natCast]
    norm_num
  have h52 : (5:ℝ) ^ (2:ℝ) = 25 := by
    rw [show (5:ℝ) ^ (2:ℝ) = (5:ℝ) ^ ((2:ℕ):ℝ) by norm_num, Real.rpow_natCast]
    norm_num
  have h4inv : (4:ℝ) ^ (-1:ℝ) = 1/4 := by
    have hh := Real.rpow_neg (by norm_num : (0:ℝ) ≤ 4) 1
    rw [Real.rpow_one] at hh
    rw [hh]
    norm_num
  have e2 : get_noise_level 2 decoy = 10 * (Real.log 5 / Real.log 10) + 100 := by
    simp only [get_noise_level, dLcav, decoy]
    rw [if_neg (by norm_num)]
    norm_num [h22, Real.one_rpow]
  have e5 : get_noise_level 5 decoy = 10 * (Real.log 26 / Real.log 10) + 25 := by
    simp only [get_noise_level, dLcav, decoy]
    rw [if_neg (by norm_num)]
    norm_num [h52, h4inv]
  have hlog26 : Real.log 26 ≤ Real.log 5 + Real.log 10 := by
    have h50 : Real.log 26 ≤ Real.log 50 :=
      Real.log_le_log (by norm_num) (by norm_num)
    have hmul : Real.log 50 = Real.log 5 + Real.log 10 := by
      rw [show (50:ℝ) = 5 * 10 by norm_num,
        Real.log_mul (by norm_num) (by norm_num)]
    linarith
  have hdiv : Real.log 26 / Real.log 10 ≤ Real.log 5 / Real.log 10 + 1 := by
    rw [div_le_iff₀ log10_pos]
    have hexp : (Real.log 5 / Real.log 10 + 1) * Real.log 10
        = Real.log 5 + Real.log 10 := by
      field_simp
    rw [hexp]
    exact hlog26
  rw [e2, e5] at hmono
  linarith

/-- C7 amended: for every profile satisfying the data-model invariants *and
with non-negative cavitation growth rate* (`p ≥ 0`, which holds for the
reference value 2.5), `get_noise_level` is monotonically non-decreasing in
speed. -/
theorem noise_level_monotone (s : System) (hs : validProfile s) (hp : 0 ≤ s.p)
    (a b : ℝ) (ha : 0 ≤ a) (hab : a ≤ b) :
    get_noise_level a s ≤ get_noise_level b s := by
  obtain ⟨hv0, hA, hn⟩ := hs
  simp only [get_noise_level]
  have hda : 0 ≤ a / s.v0 := div_nonneg ha hv0.le
  have hdb : a / s.v0 ≤ b / s.v0 := (div_le_div_iff_of_pos_right hv0).mpr hab
  have hrp : (a / s.v0) ^ s.n ≤ (b / s.v0) ^ s.n :=
    Real.rpow_le_rpow hda hdb hn.le
  have hx : (0:ℝ) < 1 + (a / s.v0) ^ s.n := by
    have := Real.rpow_nonneg hda s.n
    linarith
  have hlog : Real.log (1 + (a / s.v0) ^ s.n)
      ≤ Real.log (1 + (b / s.v0) ^ s.n) :=
    Real.log_le_log hx (by linarith)
  have hgrow : 10 * (Real.log (1 + (a / s.v0) ^ s.n) / Real.log 10)
      ≤ 10 * (Real.log (1 + (b / s.v0) ^ s.n) / Real.log 10) := by
    have hq : Real.log (1 + (a / s.v0) ^ s.n) / Real.log 10
        ≤ Real.log (1 + (b / s.v0) ^ s.n) / Real.log 10 :=
      (div_le_div_iff_of_pos_right log10_pos).mpr hlog
    linarith
  have hcav : dLcav a s ≤ dLcav b s := dLcav_mono s hA hp hab
  linarith

/-- Witness for the amended C7: Ohio (whose `p = 2.5 ≥ 0`) from speed 5 to
speed 25. -/
theorem noise_level_monotone_witness :
    get_noise_level 5 ohio ≤ get_noise_level 25 ohio :=
  noise_level_monotone ohio ohio_valid (by norm_num [ohio]) 5 25
    (by norm_num) (by norm_num)

/-- C8 counterexample: at the non-positive distance 0, `get_transmission_loss`
does not raise `InvalidParameterError`: it evaluates `np.log(0)` (yielding
`-inf` with only a RuntimeWarning) and returns normally. -/
theorem transmission_loss_no_error_cex :
    get_transmission_loss_run 0 = TLResult.negInf
      ∧ get_transmission_loss_run 0 ≠ TLResult.raised PyError.invalidParameter := by
  have h : get_transmission_loss_run 0 = TLResult.negInf := by
    rw [get_transmission_loss_run, if_neg (by norm_num), if_pos rfl]
  exact ⟨h, by rw [h]; simp⟩

/-- C8 amended: `get_transmission_loss` performs no validation and raises
nothing for any non-positive distance: at distance 0 it propagates `-inf`
from `np.log(0)`, below 0 it propagates `nan`, and no input produces a raised
exception. -/
theorem transmission_loss_nonpos_no_error (r : ℝ) (hr : r ≤ 0) :
    (r = 0 → get_transmission_loss_run r = TLResult.negInf)
      ∧ (r < 0 → get_transmission_loss_run r = TLResult.nan)
      ∧ ∀ e : PyError, get_transmission_loss_run r ≠ TLResult.raised e := by
  have hnot : ¬ 0 < r := not_lt.mpr hr
  refine ⟨?_, ?_, ?_⟩
  · intro h; rw [get_transmission_loss_run, if_neg hnot, if_pos h]
  · intro h; rw [get_transmission_loss_run, if_neg hnot, if_neg (ne_of_lt h)]
  · intro e
    by_cases h0 : r = 0
    · rw [get_transmission_loss_run, if_neg hnot, if_pos h0]; simp
    · rw [get_transmission_loss_run, if_neg hnot, if_neg h0]; simp

/-- Witness for the amended C8: at distance 0 the run-time outcome is the
propagated `-inf`, not an error. -/
theorem transmission_loss_nonpos_no_error_witness :
    get_transmission_loss_run 0 = TLResult.negInf :=
  (transmission_loss_nonpos_no_error 0 le_rfl).1 rfl

/-- C9: for every `sampleCount ≥ 2` and `maxDistance ≥ 1`,
`get_snr_for_range_of_distances` produces exactly `sampleCount` samples, the
i-th at the evenly spaced distance `1 + (maxDistance - 1) * i /
(sampleCount - 1)` paired with the SNR at that distance; the first sample is
at distance 1 and the last at distance `maxDistance`. -/
theorem snr_series_samples (v r NL : ℝ) (sub : System) (intervals : ℕ)
    (hn : 2 ≤ intervals) (hr : 1 ≤ r) :
    (get_snr_for_range_of_distances v r NL sub intervals).length = intervals
      ∧ (∀ i, i < intervals →
          (get_snr_for_range_of_distances v r NL sub intervals)[i]? =
            some (1 + (r - 1) * i / ((intervals : ℝ) - 1),
              get_signal_to_noise_ratio v
                (1 + (r - 1) * i / ((intervals : ℝ) - 1)) NL sub))
      ∧ (get_snr_for_range_of_distances v r NL sub intervals)[0]? =
          some (1, get_signal_to_noise_ratio v 1 NL sub)
      ∧ (get_snr_for_range_of_distances v r NL sub intervals)[intervals - 1]? =
          some (r, get_signal_to_noise_ratio v r NL sub) := by
  have hgen : ∀ i, i < intervals →
      (get_snr_for_range_of_distances v r NL sub intervals)[i]? =
        some (1 + (r - 1) * i / ((intervals : ℝ) - 1),
          get_signal_to_noise_ratio v
            (1 + (r - 1) * i / ((intervals : ℝ) - 1)) NL sub) := by
    intro i hi
    simp only [get_snr_for_range_of_distances, linspace]
    rw [List.getElem?_map, List.getElem?_map, List.getElem?_range hi,
      Option.map_some', Option.map_some']
  refine ⟨?_, hgen, ?_, ?_⟩
  · simp [get_snr_for_range_of_distances, linspace]
  · have h0 := hgen 0 (by omega)
    simpa using h0
  · have hlast := hgen (intervals - 1) (by omega)
    have hcast : ((intervals - 1 : ℕ) : ℝ) = (intervals : ℝ) - 1 := by
      have h1 : 1 ≤ intervals := by omega
      push_cast [h1]
      ring
    have hne : ((intervals : ℝ) - 1) ≠ 0 := by
      have h2 : (2:ℝ) ≤ (intervals : ℝ) := by exact_mod_cast hn
      linarith
    have hdist : 1 + (r - 1) * ((intervals - 1 : ℕ) : ℝ) / ((intervals : ℝ) - 1)
        = r := by
      rw [hcast]
      field_simp
    rw [hdist] at hlast
    exact hlast

/-- Witness for C9: the spec's concrete scenario `maxDistance = 1000`,
`sampleCount = 1000` — exactly 1000 samples, first at distance 1, last at
distance 1000. -/
theorem snr_series_samples_witness :
    (get_snr_for_range_of_distances 5 1000 60 ohio 1000).length = 1000
      ∧ (get_snr_for_range_of_distances 5 1000 60 ohio 1000)[0]? =
          some (1, get_signal_to_noise_ratio 5 1 60 ohio)
      ∧ (get_snr_for_range_of_distances 5 1000 60 ohio 1000)[1000 - 1]? =
          some (1000, get_signal_to_noise_ratio 5 1000 60 ohio) := by
  have h := snr_series_samples 5 1000 60 ohio 1000 (by norm_num) (by norm_num)
  exact ⟨h.1, h.2.2.1, h.2.2.2⟩

/-- C10: on the empty catalog the loop of `get_quietest_sub` never runs, so
its result variable `quietest_sub` (bound only inside the loop; only the
`loudest_sub`-named variable is initialised beforehand) is still unbound when
the return expression reads it, and evaluation fails with `NameError` instead
of returning a `(name, snr)` pair. -/
theorem quietest_empty_unbound (v r NL : ℝ) :
    get_quietest_sub v r NL [] = Except.error PyError.nameError := rfl

end

end SubmarineSNR
